import Mathlib

/-!
Shallow embedding of the Track aggregate from `src/track/track.cpp` (Mixxx).

The mutable `Track` object is modelled as a pure state type `TrackState`;
each member function of the C++ class becomes a Lean function from the
state (plus arguments) to the new state, the list of Qt signals emitted
after the lock is released, and the return value.  External collaborators
whose code is not part of the repository snapshot (mixxx::Beats,
mixxx::TrackRecord internals, the beats/cue importers, the metadata
source) are modelled from the specification; each such definition carries
a doc comment saying so.

Machine doubles (BPM values, frame positions, sample rates) are modelled
as rationals; an invalid BPM / frame position is `none`.
-/

namespace Mixxx

/-- A BPM value; `none` models an invalid (`!isValid()`) `mixxx::Bpm`. -/
abbrev Bpm := Option ℚ

/-- A frame position; `none` models `mixxx::audio::kInvalidFramePos`. -/
abbrev FramePos := Option ℚ

/-- `mixxx::audio::kStartFramePos` (frame 0, a valid position). -/
def kStartFramePos : FramePos := some 0

/-- Modelled from the spec: `mixxx::Beats` is an opaque,
immutable-once-constructed beat grid that exposes `getBpm()` and whose
`setBpm` yields a new instance; `fromConstTempo` builds a constant-tempo
grid from a sample rate, an anchor position and a BPM. -/
structure Beats where
  sampleRate : Option ℚ
  anchor : FramePos
  bpm : Bpm
deriving DecidableEq

def Beats.getBpm (b : Beats) : Bpm := b.bpm

/-- `mixxx::Beats::setBpm` yields a new grid at the new BPM, preserving
the rest of the grid structure. -/
def Beats.setBpm (b : Beats) (newBpm : Bpm) : Beats := { b with bpm := newBpm }

/-- `mixxx::Beats::fromConstTempo(sampleRate, position, bpm)`. -/
def Beats.fromConstTempo (sampleRate : Option ℚ) (position : FramePos) (bpm : Bpm) : Beats :=
  ⟨sampleRate, position, bpm⟩

/-- `getBeatsPointerBpm` from the anonymous namespace of `track.cpp`:
the grid's BPM when a grid is present, the invalid BPM otherwise. -/
def getBeatsPointerBpm (pBeats : Option Beats) : Bpm :=
  match pBeats with
  | some b => b.getBpm
  | none => none

/-- `mixxx::CueType` (the members used by `track.cpp`). -/
inductive CueType where
  | MainCue
  | HotCue
  | Loop
  | Intro
  | Outro
deriving DecidableEq

/-- A `Cue` object: type, hot-cue slot index, start/end frame positions. -/
structure Cue where
  type : CueType
  hotCueIndex : Int
  startPosition : FramePos
  endPosition : FramePos
deriving DecidableEq

/-- `Cue::kNoHotCue`: the "no hot cue" sentinel index. -/
def Cue.kNoHotCue : Int := -1

/-- `mixxx::kFirstHotCueIndex`: the minimum valid hot-cue index
(hot cues are 0-based per the spec). -/
def kFirstHotCueIndex : Int := 0

/-- `Cue::getPosition()` is the start position. -/
def Cue.getPosition (c : Cue) : FramePos := c.startPosition

/-- `mixxx::audio::StreamInfo` as far as `track.cpp` consumes it:
the signal info's sample rate (`none` when invalid) and the duration. -/
structure StreamInfo where
  sampleRate : Option ℚ
  duration : ℚ
deriving DecidableEq

/-- Placeholder stream info used to totalize the dereference
`*m_record.getStreamInfoFromSource()`; every reachable call site
guarantees the optional is set. -/
def streamInfoUnknown : StreamInfo := ⟨none, 0⟩

/-- Modelled from the spec: `mixxx::SeratoTags` as far as `track.cpp`
mutates and reads it (parser status, track color, BPM-lock flag, stored
cue and beats sidecar data). -/
structure SeratoTags where
  parserFailed : Bool
  trackColor : Option ℕ
  bpmLocked : Bool
  cues : List Cue
  beats : Option Beats
deriving DecidableEq

/-- `mixxx::TrackMetadata` restricted to the fields the claims touch:
the track-info BPM, the stream-info sample rate, the Serato tags and a
stand-in `extra` field for file-tag data not yet tracked by the
persisted schema. -/
structure TrackMetadata where
  bpm : Bpm
  sampleRate : Option ℚ
  serato : SeratoTags
  extra : Option ℕ
deriving DecidableEq

/-- `mixxx::TrackRecord` restricted to the fields the claims touch. -/
structure TrackRecord where
  id : Option ℕ
  metadata : TrackMetadata
  mainCuePosition : FramePos
  bpmLocked : Bool
  color : Option ℕ
  sourceSynchronized : Bool
  streamInfoFromSource : Option StreamInfo
deriving DecidableEq

/-- Modelled from the spec: a one-shot, drainable beats importer; `none`
data means the importer is empty (already drained). -/
structure BeatsImporter where
  data : Option Beats
deriving DecidableEq

def BeatsImporter.isEmpty (i : BeatsImporter) : Bool := i.data.isNone

/-- Modelled from the spec: draining the importer converts the imported
beats using the actual sample rate of the measured stream info. -/
def BeatsImporter.importBeatsAndApplyTimingOffset
    (i : BeatsImporter) (streamInfo : StreamInfo) : Option Beats :=
  i.data.map fun b => { b with sampleRate := streamInfo.sampleRate }

/-- Modelled from the spec: a one-shot, drainable cue-info importer;
an empty cue list means the importer is empty. -/
structure CueInfoImporter where
  data : List Cue
deriving DecidableEq

def CueInfoImporter.isEmpty (i : CueInfoImporter) : Bool := i.data.isEmpty

def CueInfoImporter.hasCueOfType (i : CueInfoImporter) (t : CueType) : Bool :=
  i.data.any fun c => c.type = t

/-- Modelled from the spec: draining the cue importer yields the stored
cues (timing offsets applied with the now-known sample rate). -/
def CueInfoImporter.importCueInfosAndApplyTimingOffset
    (i : CueInfoImporter) : List Cue :=
  i.data

/-- The Qt signals `track.cpp` emits (payloads other than the track id
are omitted; only which notification fired matters for the spec). -/
inductive Signal where
  | dirty (id : ℕ)
  | clean (id : ℕ)
  | changed (id : ℕ)
  | bpmChanged
  | beatsUpdated
  | cuesUpdated
  | durationChanged
  | keyChanged
  | replayGainUpdated
  | colorUpdated
  | artistChanged
  | titleChanged
  | albumChanged
  | albumArtistChanged
  | genreChanged
  | composerChanged
  | groupingChanged
  | yearChanged
  | trackNumberChanged
  | trackTotalChanged
  | commentChanged
  | timesPlayedChanged
  | infoChanged
deriving DecidableEq

/-- `Track::ImportStatus`. -/
inductive ImportStatus where
  | Complete
  | Pending
deriving DecidableEq

/-- `ExportTrackMetadataResult`. -/
inductive ExportTrackMetadataResult where
  | Succeeded
  | Skipped
  | Failed
deriving DecidableEq

/-- The whole mutable state of a `Track` object. -/
structure TrackState where
  record : TrackRecord
  pBeats : Option Beats
  cuePoints : List Cue
  bDirty : Bool
  bMarkedForMetadataExport : Bool
  pBeatsImporterPending : Option BeatsImporter
  pCueInfoImporterPending : Option CueInfoImporter
deriving DecidableEq

namespace Track

/-- The `Track` constructor: a fresh record holding only the (optional)
track id; no beats, no cues, not dirty, no pending importers. -/
def init (trackId : Option ℕ) : TrackState :=
  { record :=
      { id := trackId
        metadata := { bpm := none, sampleRate := none,
                      serato := ⟨false, none, false, [], none⟩, extra := none }
        mainCuePosition := kStartFramePos
        bpmLocked := false
        color := none
        sourceSynchronized := false
        streamInfoFromSource := none }
    pBeats := none
    cuePoints := []
    bDirty := false
    bMarkedForMetadataExport := false
    pBeatsImporterPending := none
    pCueInfoImporterPending := none }

/-- The `compareAndSet` helper from the anonymous namespace: returns the
(possibly updated) field value and whether it was modified. -/
def compareAndSet {α : Type} [DecidableEq α] (field : α) (value : α) : α × Bool :=
  if field ≠ value then (value, true) else (field, false)

/-- `Track::setDirtyAndUnlock`: set the dirty flag, capture the id,
unlock, then emit `dirty`/`clean` on transition and `changed` on every
dirty-marking call — all only when the id is valid. -/
def setDirtyAndUnlock (s : TrackState) (bDirty : Bool) : TrackState × List Signal :=
  let dirtyChanged := s.bDirty ≠ bDirty
  let s' := { s with bDirty := bDirty }
  match s.record.id with
  | none => (s', [])
  | some trackId =>
      ((s',
        (if dirtyChanged then
          (if bDirty then [Signal.dirty trackId] else [Signal.clean trackId])
        else []) ++
        (if bDirty then [Signal.changed trackId] else [])))

/-- `Track::markDirtyAndUnlock` (header-inline); modelled from the spec:
the "mark dirty and unlock" primitive is `setDirtyAndUnlock` with
`bDirty = true`. -/
def markDirtyAndUnlock (s : TrackState) : TrackState × List Signal :=
  setDirtyAndUnlock s true

/-- `Track::markDirty`. -/
def markDirty (s : TrackState) : TrackState × List Signal :=
  setDirtyAndUnlock s true

/-- `Track::markClean`. -/
def markClean (s : TrackState) : TrackState × List Signal :=
  setDirtyAndUnlock s false

/-- `Track::getBpmWhileLocked` (the value it returns; its
`DEBUG_ASSERT` is the C1 invariant proved below). -/
def getBpmWhileLocked (s : TrackState) : Bpm :=
  s.record.metadata.bpm

/-- `Track::setBeatsWhileLocked`: replace the beats reference and
re-derive the record's BPM from the new grid. -/
def setBeatsWhileLocked (s : TrackState) (pBeats : Option Beats) : TrackState × Bool :=
  if s.pBeats = pBeats then
    (s, false)
  else
    ({ s with
        pBeats := pBeats
        record.metadata.bpm := getBeatsPointerBpm pBeats }, true)

/-- `Track::trySetBeatsWhileLocked`: reject when a grid exists and the
BPM is locked; otherwise install the grid and update the lock flag. -/
def trySetBeatsWhileLocked (s : TrackState) (pBeats : Option Beats)
    (lockBpmAfterSet : Bool) : TrackState × Bool :=
  if s.pBeats.isSome ∧ s.record.bpmLocked then
    (s, false)
  else
    let r1 := setBeatsWhileLocked s pBeats
    let r2 := compareAndSet r1.1.record.bpmLocked lockBpmAfterSet
    ({ r1.1 with record.bpmLocked := r2.1 }, r1.2 || r2.2)

/-- `Track::getSampleRate()` reads the metadata stream info. -/
def getSampleRate (s : TrackState) : Option ℚ :=
  s.record.metadata.sampleRate

/-- `Track::trySetBpmWhileLocked`: the BPM state machine. -/
def trySetBpmWhileLocked (s : TrackState) (bpm : Bpm) : TrackState × Bool :=
  if bpm.isNone then
    -- invalid BPM: the user wants to clear the beat grid
    trySetBeatsWhileLocked s none false
  else
    match s.pBeats with
    | none =>
        -- no beat grid available: create and initialize
        let cuePosition :=
          if s.record.mainCuePosition.isSome then s.record.mainCuePosition
          else kStartFramePos
        trySetBeatsWhileLocked s
          (some (Beats.fromConstTempo (getSampleRate s) cuePosition bpm)) false
    | some b =>
        if b.getBpm ≠ bpm then
          trySetBeatsWhileLocked s (some (b.setBpm bpm)) false
        else
          (s, false)

/-- `Track::emitBeatsAndBpmUpdated` (emits `bpmChanged`, `beatsUpdated`). -/
def emitBeatsAndBpmUpdated : List Signal :=
  [Signal.bpmChanged, Signal.beatsUpdated]

/-- `Track::afterBeatsAndBpmUpdated`: mark dirty, unlock, emit. -/
def afterBeatsAndBpmUpdated (s : TrackState) : TrackState × List Signal :=
  let r := markDirtyAndUnlock s
  (r.1, r.2 ++ emitBeatsAndBpmUpdated)

/-- `Track::trySetBpm`. -/
def trySetBpm (s : TrackState) (bpm : Bpm) : TrackState × List Signal × Bool :=
  let r := trySetBpmWhileLocked s bpm
  if r.2 then
    let r' := afterBeatsAndBpmUpdated r.1
    (r'.1, r'.2, true)
  else
    (r.1, [], false)

/-- `Track::trySetBeatsMarkDirtyAndUnlock`. -/
def trySetBeatsMarkDirtyAndUnlock (s : TrackState) (pBeats : Option Beats)
    (lockBpmAfterSet : Bool) : TrackState × List Signal × Bool :=
  let r := trySetBeatsWhileLocked s pBeats lockBpmAfterSet
  if r.2 then
    let r' := afterBeatsAndBpmUpdated r.1
    (r'.1, r'.2, true)
  else
    (r.1, [], false)

/-- `Track::trySetBeats`. -/
def trySetBeats (s : TrackState) (pBeats : Option Beats) :
    TrackState × List Signal × Bool :=
  trySetBeatsMarkDirtyAndUnlock s pBeats false

/-- `Track::trySetAndLockBeats`. -/
def trySetAndLockBeats (s : TrackState) (pBeats : Option Beats) :
    TrackState × List Signal × Bool :=
  trySetBeatsMarkDirtyAndUnlock s pBeats true

/-- `Track::getBeats`. -/
def getBeats (s : TrackState) : Option Beats :=
  s.pBeats

/-- `Track::getBeatsImportStatus`. -/
def getBeatsImportStatus (s : TrackState) : ImportStatus :=
  match s.pBeatsImporterPending with
  | none => ImportStatus.Complete
  | some imp => if imp.isEmpty then ImportStatus.Complete else ImportStatus.Pending

/-- `Track::getCueImportStatus`. -/
def getCueImportStatus (s : TrackState) : ImportStatus :=
  match s.pCueInfoImporterPending with
  | none => ImportStatus.Complete
  | some imp => if imp.isEmpty then ImportStatus.Complete else ImportStatus.Pending

/-- `Track::importPendingBeatsWhileLocked`: drain the pending beats
importer (which requires the stream info from source) and install the
imported beats. -/
def importPendingBeatsWhileLocked (s : TrackState) : TrackState × Bool :=
  match s.pBeatsImporterPending with
  | none => (s, false)
  | some imp =>
      if imp.isEmpty then
        ({ s with pBeatsImporterPending := none }, false)
      else
        let streamInfo := s.record.streamInfoFromSource.getD streamInfoUnknown
        let pBeats := imp.importBeatsAndApplyTimingOffset streamInfo
        setBeatsWhileLocked { s with pBeatsImporterPending := none } pBeats

/-- `Track::tryImportPendingBeatsMarkDirtyAndUnlock`: refuse when the
BPM is locked; otherwise drain the pending importer and update the lock
flag, emitting notifications when anything changed. -/
def tryImportPendingBeatsMarkDirtyAndUnlock (s : TrackState)
    (lockBpmAfterSet : Bool) : TrackState × List Signal × Bool :=
  if s.record.bpmLocked then
    (s, [], false)
  else
    let r1 := importPendingBeatsWhileLocked s
    let r2 := compareAndSet r1.1.record.bpmLocked lockBpmAfterSet
    let s2 := { r1.1 with record.bpmLocked := r2.1 }
    if !(r1.2 || r2.2) then
      (s2, [], true)
    else
      let r' := afterBeatsAndBpmUpdated s2
      (r'.1, r'.2, true)

/-- `Track::tryImportBeats`: the two-phase deferred beats import. -/
def tryImportBeats (s : TrackState) (imp : BeatsImporter)
    (lockBpmAfterSet : Bool) : TrackState × List Signal × ImportStatus :=
  let s0 := { s with pBeatsImporterPending := some imp }
  if imp.isEmpty then
    ({ s0 with pBeatsImporterPending := none }, [], ImportStatus.Complete)
  else if s0.record.streamInfoFromSource.isSome then
    -- replace existing beats with imported beats immediately
    let r := tryImportPendingBeatsMarkDirtyAndUnlock s0 lockBpmAfterSet
    (r.1, r.2.1, ImportStatus.Complete)
  else
    -- clear all existing beats that are about to be replaced
    let r := trySetBeatsMarkDirtyAndUnlock s0 none lockBpmAfterSet
    if r.2.2 then
      (r.1, r.2.1, ImportStatus.Pending)
    else
      (r.1, r.2.1, ImportStatus.Complete)

/-- `Track::setCuePointsWhileLocked`: replace the cue collection and
re-derive the record's main-cue position from any `MainCue` entries (in
list order, so the last one wins). -/
def setCuePointsWhileLocked (s : TrackState) (cuePoints : List Cue) :
    TrackState × Bool :=
  if s.cuePoints.isEmpty ∧ cuePoints.isEmpty then
    (s, false)
  else
    let newMainCue := cuePoints.foldl
      (fun pos c => if c.type = CueType.MainCue then c.getPosition else pos)
      s.record.mainCuePosition
    ({ s with
        cuePoints := cuePoints
        record.mainCuePosition := newMainCue }, true)

/-- `Track::setCuePointsMarkDirtyAndUnlock`. -/
def setCuePointsMarkDirtyAndUnlock (s : TrackState) (cuePoints : List Cue) :
    TrackState × List Signal :=
  let r := setCuePointsWhileLocked s cuePoints
  if r.2 then
    let r' := markDirtyAndUnlock r.1
    (r'.1, r'.2 ++ [Signal.cuesUpdated])
  else
    (r.1, [])

/-- `Track::setCuePoints`. -/
def setCuePoints (s : TrackState) (cuePoints : List Cue) :
    TrackState × List Signal :=
  setCuePointsMarkDirtyAndUnlock s cuePoints

/-- `Track::importPendingCueInfosWhileLocked`: drain the pending cue
importer, preserving existing cues of types the importer does not
provide, and replace the cue collection. -/
def importPendingCueInfosWhileLocked (s : TrackState) : TrackState × Bool :=
  match s.pCueInfoImporterPending with
  | none => (s, false)
  | some imp =>
      if imp.isEmpty then
        ({ s with pCueInfoImporterPending := none }, false)
      else
        let kept := s.cuePoints.filter fun c => !imp.hasCueOfType c.type
        let imported := imp.importCueInfosAndApplyTimingOffset
        setCuePointsWhileLocked { s with pCueInfoImporterPending := none }
          (kept ++ imported)

/-- `Track::importPendingCueInfosMarkDirtyAndUnlock`. -/
def importPendingCueInfosMarkDirtyAndUnlock (s : TrackState) :
    TrackState × List Signal :=
  let r := importPendingCueInfosWhileLocked s
  if r.2 then
    let r' := markDirtyAndUnlock r.1
    (r'.1, r'.2 ++ [Signal.cuesUpdated])
  else
    (r.1, [])

/-- `Track::importCueInfos`: the two-phase deferred cue import. -/
def importCueInfos (s : TrackState) (imp : CueInfoImporter) :
    TrackState × List Signal × ImportStatus :=
  let s0 := { s with pCueInfoImporterPending := some imp }
  if imp.isEmpty then
    ({ s0 with pCueInfoImporterPending := none }, [], ImportStatus.Complete)
  else if s0.record.streamInfoFromSource.isSome then
    let r := importPendingCueInfosMarkDirtyAndUnlock s0
    (r.1, r.2, ImportStatus.Complete)
  else
    let r := setCuePointsMarkDirtyAndUnlock s0 []
    (r.1, r.2, ImportStatus.Pending)

/-- Modelled from the spec: `mixxx::TrackRecord::updateStreamInfoFromSource`
records the measured stream info and keeps the metadata's stream info
consistent with it; returns whether anything was updated. -/
def recordUpdateStreamInfoFromSource (r : TrackRecord) (streamInfo : StreamInfo) :
    TrackRecord × Bool :=
  if r.streamInfoFromSource = some streamInfo ∧
      r.metadata.sampleRate = streamInfo.sampleRate then
    (r, false)
  else
    ({ r with
        streamInfoFromSource := some streamInfo
        metadata.sampleRate := streamInfo.sampleRate }, true)

/-- The body of `Track::updateStreamInfoFromSource` after the record
update (`updated` is the record-update result): finish any deferred
beats/cue imports and emit the corresponding notifications. -/
def finishPendingImportsTail (rc : TrackState × Bool) (beatsImported : Bool) :
    TrackState × List Signal :=
  if !beatsImported ∧ !rc.2 then
    (rc.1, [])
  else
    let rs :=
      if beatsImported then
        afterBeatsAndBpmUpdated rc.1
      else
        let r' := markDirtyAndUnlock rc.1
        (r'.1, r'.2 ++ [Signal.durationChanged])
    if rc.2 then
      (rs.1, rs.2 ++ [Signal.cuesUpdated])
    else
      (rs.1, rs.2)

/-- The deferred-import phase of `Track::updateStreamInfoFromSource`:
drain the pending beats and/or cue importers and emit the
corresponding notifications. -/
def finishPendingImports (s0 : TrackState) (importBeats importCues : Bool) :
    TrackState × List Signal :=
  let rb := if importBeats then importPendingBeatsWhileLocked s0 else (s0, false)
  let rc := if importCues then importPendingCueInfosWhileLocked rb.1 else (rb.1, false)
  finishPendingImportsTail rc rb.2

def updateStreamInfoImports (s0 : TrackState) (updated : Bool) :
    TrackState × List Signal :=
  let importBeats :=
    match s0.pBeatsImporterPending with
    | some imp => !imp.isEmpty
    | none => false
  let importCues :=
    match s0.pCueInfoImporterPending with
    | some imp => !imp.isEmpty
    | none => false
  if !importBeats ∧ !importCues then
    if updated then
      let r' := markDirtyAndUnlock s0
      (r'.1, r'.2 ++ [Signal.durationChanged])
    else
      (s0, [])
  else
    finishPendingImports s0 importBeats importCues

/-- `Track::updateStreamInfoFromSource`: record the measured stream
info, then finish any deferred beats/cue imports. -/
def updateStreamInfoFromSource (s : TrackState) (streamInfo : StreamInfo) :
    TrackState × List Signal :=
  let ru := recordUpdateStreamInfoFromSource s.record streamInfo
  updateStreamInfoImports { s with record := ru.1 } ru.2

/-- `Track::findCueByType` (first cue of the given type; refuses the
`HotCue` type because multiple hot cues may exist). -/
def findCueByType (s : TrackState) (t : CueType) : Option Cue :=
  if t = CueType.HotCue then
    none
  else
    s.cuePoints.find? fun c => c.type = t

/-- Replace the first list entry satisfying `p` by `f` applied to it
(models the in-place mutation of the shared `Cue` object found by
`findCueByType`). -/
def updateFirstCue (l : List Cue) (p : Cue → Bool) (f : Cue → Cue) : List Cue :=
  match l with
  | [] => []
  | c :: cs => if p c then f c :: cs else c :: updateFirstCue cs p f

/-- `Track::setMainCuePosition`: store the position in the record and
mirror it into the cue collection's `MainCue` entry. -/
def setMainCuePosition (s : TrackState) (position : FramePos) :
    TrackState × List Signal :=
  let r := compareAndSet s.record.mainCuePosition position
  if !r.2 then
    (s, [])
  else
    let s1 := { s with record.mainCuePosition := r.1 }
    let pLoadCue := findCueByType s1 CueType.MainCue
    let updatedCues :=
      updateFirstCue s1.cuePoints (fun c => c.type = CueType.MainCue)
        (fun c => { c with startPosition := position })
    let s2 :=
      if position.isSome then
        match pLoadCue with
        | some _ =>
            { s1 with cuePoints := updatedCues }
        | none =>
            { s1 with cuePoints :=
                s1.cuePoints ++ [⟨CueType.MainCue, Cue.kNoHotCue, position, none⟩] }
      else
        match pLoadCue with
        | some c => { s1 with cuePoints := s1.cuePoints.erase c }
        | none => s1
    let r' := markDirtyAndUnlock s2
    (r'.1, r'.2 ++ [Signal.cuesUpdated])

/-- `Track::createAndAddCue`: validate the hot-cue index and the
positions; on success append the new cue and return it, otherwise
perform a safe no-op returning an empty pointer. -/
def createAndAddCue (s : TrackState) (t : CueType) (hotCueIndex : Int)
    (startPosition endPosition : FramePos) :
    TrackState × List Signal × Option Cue :=
  if ¬(hotCueIndex = Cue.kNoHotCue ∨ hotCueIndex ≥ kFirstHotCueIndex) then
    (s, [], none)
  else if ¬(startPosition.isSome = true ∨ endPosition.isSome = true) then
    (s, [], none)
  else
    let pCue : Cue := ⟨t, hotCueIndex, startPosition, endPosition⟩
    let s1 := { s with cuePoints := s.cuePoints ++ [pCue] }
    let r := markDirtyAndUnlock s1
    (r.1, r.2 ++ [Signal.cuesUpdated], some pCue)

/-- `Track::removeCue` (for a non-null cue pointer): remove the first
occurrence and reset the main-cue position when a `MainCue` was
removed. -/
def removeCue (s : TrackState) (pCue : Cue) : TrackState × List Signal :=
  let s1 := { s with cuePoints := s.cuePoints.erase pCue }
  let s2 :=
    if pCue.type = CueType.MainCue then
      { s1 with record.mainCuePosition := kStartFramePos }
    else
      s1
  let r := markDirtyAndUnlock s2
  (r.1, r.2 ++ [Signal.cuesUpdated])

/-- `Track::removeCuesOfType`: remove every cue of the given type and
unconditionally reset the record's main-cue position to the start
position; mark dirty and notify only when something changed. -/
def removeCuesOfType (s : TrackState) (t : CueType) : TrackState × List Signal :=
  let removedAny := s.cuePoints.any fun c => c.type = t
  let s1 := { s with cuePoints := s.cuePoints.filter fun c => !(c.type = t) }
  let r := compareAndSet s1.record.mainCuePosition kStartFramePos
  let s2 := { s1 with record.mainCuePosition := r.1 }
  if removedAny || r.2 then
    let r' := markDirtyAndUnlock s2
    (r'.1, r'.2 ++ [Signal.cuesUpdated])
  else
    (s2, [])

/-- `Track::setBpmLocked`. -/
def setBpmLocked (s : TrackState) (bpmLocked : Bool) : TrackState × List Signal :=
  let r := compareAndSet s.record.bpmLocked bpmLocked
  if r.2 then
    markDirtyAndUnlock { s with record.bpmLocked := r.1 }
  else
    ({ s with record.bpmLocked := r.1 }, [])

/-- `Track::isBpmLocked`. -/
def isBpmLocked (s : TrackState) : Bool :=
  s.record.bpmLocked

/-- `Track::initId`: the id may be assigned only once. -/
def initId (s : TrackState) (id : ℕ) : TrackState :=
  if s.record.id = some id then
    s
  else if s.record.id.isSome then
    s
  else
    { s with record.id := some id }

/-- `Track::resetId`. -/
def resetId (s : TrackState) : TrackState :=
  { s with record.id := none }

/-- `Track::setSourceSynchronizedAt` (the timestamp itself is modelled
as the boolean source-synchronized state). -/
def setSourceSynchronizedAt (s : TrackState) (sourceSynchronized : Bool) :
    TrackState × List Signal :=
  let r := compareAndSet s.record.sourceSynchronized sourceSynchronized
  if r.2 then
    markDirtyAndUnlock { s with record.sourceSynchronized := r.1 }
  else
    ({ s with record.sourceSynchronized := r.1 }, [])

/-- `Track::markForMetadataExport`. -/
def markForMetadataExport (s : TrackState) : TrackState :=
  { s with bMarkedForMetadataExport := true }

/-- `Track::emitChangedSignalsForAllMetadata`. -/
def emitChangedSignalsForAllMetadata : List Signal :=
  [Signal.artistChanged, Signal.titleChanged, Signal.albumChanged,
    Signal.albumArtistChanged, Signal.genreChanged, Signal.composerChanged,
    Signal.groupingChanged, Signal.yearChanged, Signal.trackNumberChanged,
    Signal.trackTotalChanged, Signal.commentChanged, Signal.bpmChanged,
    Signal.timesPlayedChanged, Signal.durationChanged, Signal.infoChanged,
    Signal.keyChanged]

/-- Modelled from the spec: `mixxx::TrackRecord::mergeExtraMetadataFromSource`
only fills metadata fields not already tracked by the persisted schema
(the stand-in `extra` field); never touches BPM/key/beats. -/
def recordMergeExtraMetadataFromSource (r : TrackRecord)
    (imported : TrackMetadata) : TrackRecord × Bool :=
  if r.metadata.extra.isNone ∧ imported.extra.isSome then
    ({ r with metadata.extra := imported.extra }, true)
  else
    (r, false)

/-- `Track::mergeExtraMetadataFromSource`. -/
def mergeExtraMetadataFromSource (s : TrackState) (imported : TrackMetadata) :
    TrackState × List Signal × Bool :=
  let r := recordMergeExtraMetadataFromSource s.record imported
  if !r.2 then
    ({ s with record := r.1 }, [], false)
  else
    let r' := markDirtyAndUnlock { s with record := r.1 }
    (r'.1, r'.2 ++ emitChangedSignalsForAllMetadata, true)

end Track

/-- Result enum of `mixxx::MetadataSource::exportTrackMetadata`. -/
inductive MetadataSourceExportResult where
  | Succeeded
  | Unsupported
  | Failed
deriving DecidableEq

/-- A call into the external metadata-source collaborator (used to
observe whether `exportMetadata` invokes the read/write paths). -/
inductive ExtCall where
  | importTrackMetadata
  | exportTrackMetadata
deriving DecidableEq

/-- The external inputs `Track::exportMetadata` consumes: the Serato
config flag, the outcome of re-importing the file tags (`some` models
`ImportResult::Succeeded` together with the imported metadata), the
outcome of the write, and the external metadata operations
`normalizeBeforeExport` / `anyFileTagsModified` whose code is not part
of the repository snapshot. -/
structure ExportEnv where
  seratoMetadataExportEnabled : Bool
  importedFromFile : Option TrackMetadata
  exportResult : MetadataSourceExportResult
  normalizeBeforeExport : TrackMetadata → TrackMetadata
  anyFileTagsModified : TrackMetadata → TrackMetadata → Bool

namespace Track

/-- The tail of `Track::exportMetadata`: reset the export marker,
invoke the metadata source's write path and translate its result
(recording the new source-synchronized state on success). -/
def exportMetadataTail (env : ExportEnv) (s : TrackState) (calls : List ExtCall) :
    TrackState × ExportTrackMetadataResult × List ExtCall :=
  let s' := { s with bMarkedForMetadataExport := false }
  let calls' := calls ++ [ExtCall.exportTrackMetadata]
  match env.exportResult with
  | MetadataSourceExportResult.Succeeded =>
      ({ s' with record.sourceSynchronized := true },
        ExportTrackMetadataResult.Succeeded, calls')
  | MetadataSourceExportResult.Unsupported =>
      (s', ExportTrackMetadataResult.Skipped, calls')
  | MetadataSourceExportResult.Failed =>
      (s', ExportTrackMetadataResult.Failed, calls')

/-- `Track::exportMetadata`: skip when the track was never marked for
export and is not source-synchronized; otherwise optionally refresh the
Serato tags, re-import the file tags, merge extra fields, compare, and
only then invoke the write path. -/
def exportMetadata (env : ExportEnv) (s : TrackState) :
    TrackState × ExportTrackMetadataResult × List ExtCall :=
  if s.bMarkedForMetadataExport = false ∧ s.record.sourceSynchronized = false then
    -- never imported from file tags and no explicit export requested
    (s, ExportTrackMetadataResult.Skipped, [])
  else
    let seratoStep : Option TrackState :=
      if env.seratoMetadataExportEnabled then
        match s.record.streamInfoFromSource with
        | none => none
        | some streamInfo =>
            if !(streamInfo.sampleRate.isSome ∧ 0 < streamInfo.duration) then
              none
            else if s.record.metadata.serato.parserFailed then
              some s
            else
              some { s with record.metadata.serato :=
                  { s.record.metadata.serato with
                      trackColor := s.record.color
                      bpmLocked := s.record.bpmLocked
                      cues := s.cuePoints
                      beats := s.pBeats } }
      else
        some s
    match seratoStep with
    | none => (s, ExportTrackMetadataResult.Skipped, [])
    | some s1 =>
        match env.importedFromFile with
        | some importedFromFile =>
            let rm := recordMergeExtraMetadataFromSource s1.record importedFromFile
            let s2 := { s1 with record := rm.1 }
            let normalizedFromRecord := env.normalizeBeforeExport s2.record.metadata
            if !s2.bMarkedForMetadataExport ∧
                !env.anyFileTagsModified normalizedFromRecord importedFromFile then
              (s2, ExportTrackMetadataResult.Skipped, [ExtCall.importTrackMetadata])
            else
              exportMetadataTail env s2 [ExtCall.importTrackMetadata]
        | none =>
            if s1.bMarkedForMetadataExport then
              exportMetadataTail env s1 [ExtCall.importTrackMetadata]
            else
              (s1, ExportTrackMetadataResult.Skipped, [ExtCall.importTrackMetadata])

/-- `Track::replaceRecord`: wholesale swap of the record, optionally
paired with an explicit new beats grid; the BPM actually stored is read
back from the post-update state and written into the new record before
it is committed. -/
def replaceRecord (s : TrackState) (newRecord : TrackRecord)
    (pOptionalBeats : Option Beats) : TrackState × List Signal × Bool :=
  let newColor := newRecord.color
  let recordUnchanged := s.record = newRecord
  if recordUnchanged ∧ pOptionalBeats.isNone then
    (s, [], false)
  else
    let oldColor := s.record.color
    let rb :=
      match pOptionalBeats with
      | some pb => trySetBeatsWhileLocked s (some pb) false
      | none => trySetBpmWhileLocked s newRecord.metadata.bpm
    if pOptionalBeats.isSome ∧ recordUnchanged ∧ !rb.2 then
      (rb.1, [], false)
    else
      let newBpm := rb.1.record.metadata.bpm
      let s2 := { rb.1 with record := { newRecord with metadata.bpm := newBpm } }
      let rd := markDirtyAndUnlock s2
      (rd.1,
        rd.2 ++ (if rb.2 then emitBeatsAndBpmUpdated else []) ++
          (if oldColor ≠ newColor then [Signal.colorUpdated] else []) ++
          emitChangedSignalsForAllMetadata,
        true)

/-- Modelled from the spec: `mixxx::TrackRecord::replaceMetadataFromSource`
replaces the record's metadata wholesale and records the new
source-synchronized state, reporting whether anything changed. -/
def recordReplaceMetadataFromSource (r : TrackRecord)
    (imported : TrackMetadata) (sourceSynchronized : Bool) : TrackRecord × Bool :=
  let r' := { r with metadata := imported, sourceSynchronized := sourceSynchronized }
  (r', decide (r ≠ r'))

/-- The Serato sidecar post-processing step of
`Track::replaceMetadataFromSource`: import the embedded beat/cue data
as a separate, later step, outside the main lock. -/
def importSeratoSidecar (s : TrackState) (bi : Option BeatsImporter)
    (seratoBpmLocked : Bool) (ci : Option CueInfoImporter) (sigs : List Signal) :
    TrackState × List Signal :=
  let q1 :=
    match bi with
    | some i =>
        let r := tryImportBeats s i seratoBpmLocked
        (r.1, sigs ++ r.2.1)
    | none => (s, sigs)
  match ci with
  | some i =>
      let r := importCueInfos q1.1 i
      (r.1, q1.2 ++ r.2.1)
  | none => q1

/-- The in-lock part of `Track::replaceMetadataFromSource`: merge the
imported metadata (preserving the current BPM; the key field is not
modelled), apply the imported BPM only when no valid grid exists, apply
the Serato track color.  Returns the new state together with the
record-, beats/bpm- and color-modified flags. -/
def replaceMetadataCore (s : TrackState) (importedMetadata : TrackMetadata)
    (sourceSynchronized : Bool) : TrackState × Bool × Bool × Bool :=
  let imported' := { importedMetadata with bpm := getBpmWhileLocked s }
  let rr := recordReplaceMetadataFromSource s.record imported' sourceSynchronized
  let s1 := { s with record := rr.1 }
  let gridMissingOrInvalid :=
    match s1.pBeats with
    | none => true
    | some b => b.getBpm.isNone
  let rb :=
    if importedMetadata.bpm.isSome && gridMissingOrInvalid then
      trySetBpmWhileLocked s1 importedMetadata.bpm
    else
      (s1, false)
  let newColor := rb.1.record.metadata.serato.trackColor
  let rc := compareAndSet rb.1.record.color newColor
  ({ rb.1 with record.color := rc.1 }, rr.2, rb.2, rc.2)

/-- `Track::replaceMetadataFromSource`: wholesale import of
freshly-read file-tag metadata; embedded Serato beat/cue data is
imported as a separate, later step, and nothing at all happens (no
dirty marking, no notifications, no sidecar import) when the merge
modified nothing. -/
def replaceMetadataFromSource (s : TrackState) (importedMetadata : TrackMetadata)
    (sourceSynchronized : Bool) : TrackState × List Signal :=
  let pSeratoBeatsImporter : Option BeatsImporter :=
    importedMetadata.serato.beats.map fun b => ⟨some b⟩
  let seratoBpmLocked := importedMetadata.serato.bpmLocked
  let pSeratoCuesImporter : Option CueInfoImporter :=
    if importedMetadata.serato.cues.isEmpty then none
    else some ⟨importedMetadata.serato.cues⟩
  let core := replaceMetadataCore s importedMetadata sourceSynchronized
  if !(core.2.1 || core.2.2.1 || core.2.2.2) then
    (core.1, [])
  else
    let rd := markDirtyAndUnlock core.1
    let sigs := rd.2 ++ (if core.2.2.1 then emitBeatsAndBpmUpdated else []) ++
      (if core.2.2.2 then [Signal.colorUpdated] else []) ++
      emitChangedSignalsForAllMetadata
    importSeratoSidecar rd.1 pSeratoBeatsImporter seratoBpmLocked
      pSeratoCuesImporter sigs

end Track

/-- The BPM/beat-grid consistency invariant asserted by
`Track::getBpmWhileLocked`: the record's BPM equals the grid's BPM when
a grid is present and is invalid when no grid is present. -/
def Inv (s : TrackState) : Prop :=
  s.record.metadata.bpm = getBeatsPointerBpm s.pBeats

/-- One public mutating operation of the Track aggregate, relating the
state before the call to the state after it. -/
inductive Step : TrackState → TrackState → Prop where
  | trySetBpm (s : TrackState) (bpm : Bpm) : Step s (Track.trySetBpm s bpm).1
  | trySetBeats (s : TrackState) (pB : Option Beats) :
      Step s (Track.trySetBeats s pB).1
  | trySetAndLockBeats (s : TrackState) (pB : Option Beats) :
      Step s (Track.trySetAndLockBeats s pB).1
  | tryImportBeats (s : TrackState) (imp : BeatsImporter) (l : Bool) :
      Step s (Track.tryImportBeats s imp l).1
  | importCueInfos (s : TrackState) (imp : CueInfoImporter) :
      Step s (Track.importCueInfos s imp).1
  | updateStreamInfoFromSource (s : TrackState) (si : StreamInfo) :
      Step s (Track.updateStreamInfoFromSource s si).1
  | markDirty (s : TrackState) : Step s (Track.markDirty s).1
  | markClean (s : TrackState) : Step s (Track.markClean s).1
  | setBpmLocked (s : TrackState) (b : Bool) : Step s (Track.setBpmLocked s b).1
  | setMainCuePosition (s : TrackState) (p : FramePos) :
      Step s (Track.setMainCuePosition s p).1
  | createAndAddCue (s : TrackState) (t : CueType) (i : Int) (sp ep : FramePos) :
      Step s (Track.createAndAddCue s t i sp ep).1
  | removeCue (s : TrackState) (c : Cue) : Step s (Track.removeCue s c).1
  | removeCuesOfType (s : TrackState) (t : CueType) :
      Step s (Track.removeCuesOfType s t).1
  | setCuePoints (s : TrackState) (cues : List Cue) :
      Step s (Track.setCuePoints s cues).1
  | setSourceSynchronizedAt (s : TrackState) (b : Bool) :
      Step s (Track.setSourceSynchronizedAt s b).1
  | markForMetadataExport (s : TrackState) : Step s (Track.markForMetadataExport s)
  | initId (s : TrackState) (n : ℕ) : Step s (Track.initId s n)
  | resetId (s : TrackState) : Step s (Track.resetId s)
  | mergeExtraMetadataFromSource (s : TrackState) (m : TrackMetadata) :
      Step s (Track.mergeExtraMetadataFromSource s m).1
  | exportMetadata (env : ExportEnv) (s : TrackState) :
      Step s (Track.exportMetadata env s).1
  | replaceRecord (s : TrackState) (nr : TrackRecord) (ob : Option Beats) :
      Step s (Track.replaceRecord s nr ob).1
  | replaceMetadataFromSource (s : TrackState) (m : TrackMetadata) (b : Bool) :
      Step s (Track.replaceMetadataFromSource s m b).1

/-- A state of the Track aggregate reachable from a freshly constructed
track by public operations. -/
def Reachable (s : TrackState) : Prop :=
  ∃ trackId, Relation.ReflTransGen Step (Track.init trackId) s

/-- A sample constant-tempo grid at 120 BPM. -/
def g120 : Beats := ⟨some 44100, some 0, some 120⟩

/-- A sample constant-tempo grid at 128 BPM. -/
def g128 : Beats := ⟨some 44100, some 0, some 128⟩

/-- A sample BPM-locked track holding the 120-BPM grid. -/
def lockedGridTrack : TrackState :=
  { Track.init (some 1) with
      pBeats := some g120
      record.bpmLocked := true
      record.metadata.bpm := some 120 }

/-- A sample unlocked track holding the 128-BPM grid. -/
def gridTrack128 : TrackState :=
  { Track.init (some 2) with
      pBeats := some g128
      record.metadata.bpm := some 128 }

/-- A sample non-empty beats importer. -/
def impDemo : BeatsImporter := ⟨some g128⟩

/-- A sample measured stream info. -/
def siDemo : StreamInfo := ⟨some 48000, 180⟩

/-- `lockedGridTrack` with measured stream info available. -/
def lockedSourceTrack : TrackState :=
  { lockedGridTrack with record.streamInfoFromSource := some siDemo }

/-- A trivial environment for `exportMetadata`. -/
def envDemo : ExportEnv :=
  ⟨false, none, MetadataSourceExportResult.Failed, fun m => m, fun _ _ => true⟩

/-- How many beats-updated notifications a signal list contains. -/
def countBeatsUpdated : List Signal → ℕ
  | [] => 0
  | a :: rest => (if a = Signal.beatsUpdated then 1 else 0) + countBeatsUpdated rest

theorem inv_of_eq {s s' : TrackState}
    (hb : s'.record.metadata.bpm = s.record.metadata.bpm)
    (hp : s'.pBeats = s.pBeats) (h : Inv s) : Inv s' := by
  unfold Inv at h ⊢
  rw [hb, hp, h]

theorem setDirtyAndUnlock_fst (s : TrackState) (b : Bool) :
    (Track.setDirtyAndUnlock s b).1 = { s with bDirty := b } := by
  rcases h : s.record.id with _ | id <;> simp [Track.setDirtyAndUnlock, h]

theorem markDirtyAndUnlock_fst (s : TrackState) :
    (Track.markDirtyAndUnlock s).1 = { s with bDirty := true } :=
  setDirtyAndUnlock_fst s true

theorem afterBeatsAndBpmUpdated_fst (s : TrackState) :
    (Track.afterBeatsAndBpmUpdated s).1 = { s with bDirty := true } :=
  setDirtyAndUnlock_fst s true

theorem inv_setBeatsWhileLocked (s : TrackState) (pB : Option Beats) (h : Inv s) :
    Inv (Track.setBeatsWhileLocked s pB).1 := by
  unfold Track.setBeatsWhileLocked
  dsimp only
  split
  · exact h
  · unfold Inv
    rfl

theorem inv_trySetBeatsWhileLocked (s : TrackState) (pB : Option Beats) (l : Bool)
    (h : Inv s) : Inv (Track.trySetBeatsWhileLocked s pB l).1 := by
  unfold Track.trySetBeatsWhileLocked
  dsimp only
  split
  · exact h
  · exact inv_of_eq rfl rfl (inv_setBeatsWhileLocked s pB h)

theorem inv_trySetBpmWhileLocked (s : TrackState) (bpm : Bpm) (h : Inv s) :
    Inv (Track.trySetBpmWhileLocked s bpm).1 := by
  unfold Track.trySetBpmWhileLocked
  dsimp only
  split
  · exact inv_trySetBeatsWhileLocked _ _ _ h
  · split
    · exact inv_trySetBeatsWhileLocked _ _ _ h
    · split
      · exact inv_trySetBeatsWhileLocked _ _ _ h
      · exact h

theorem inv_trySetBpm (s : TrackState) (bpm : Bpm) (h : Inv s) :
    Inv (Track.trySetBpm s bpm).1 := by
  unfold Track.trySetBpm
  dsimp only
  have h1 := inv_trySetBpmWhileLocked s bpm h
  split
  · rw [afterBeatsAndBpmUpdated_fst]
    exact inv_of_eq rfl rfl h1
  · exact h1

theorem inv_trySetBeatsMarkDirtyAndUnlock (s : TrackState) (pB : Option Beats)
    (l : Bool) (h : Inv s) : Inv (Track.trySetBeatsMarkDirtyAndUnlock s pB l).1 := by
  unfold Track.trySetBeatsMarkDirtyAndUnlock
  dsimp only
  have h1 := inv_trySetBeatsWhileLocked s pB l h
  split
  · rw [afterBeatsAndBpmUpdated_fst]
    exact inv_of_eq rfl rfl h1
  · exact h1

theorem inv_importPendingBeatsWhileLocked (s : TrackState) (h : Inv s) :
    Inv (Track.importPendingBeatsWhileLocked s).1 := by
  unfold Track.importPendingBeatsWhileLocked
  dsimp only
  split
  · exact h
  · split
    · exact inv_of_eq rfl rfl h
    · exact inv_setBeatsWhileLocked _ _ (inv_of_eq rfl rfl h)

theorem inv_tryImportPendingBeatsMarkDirtyAndUnlock (s : TrackState) (l : Bool)
    (h : Inv s) : Inv (Track.tryImportPendingBeatsMarkDirtyAndUnlock s l).1 := by
  unfold Track.tryImportPendingBeatsMarkDirtyAndUnlock
  dsimp only
  have h1 := inv_importPendingBeatsWhileLocked s h
  split
  · exact h
  · split
    · exact inv_of_eq rfl rfl h1
    · rw [afterBeatsAndBpmUpdated_fst]
      exact inv_of_eq rfl rfl h1

theorem inv_tryImportBeats (s : TrackState) (imp : BeatsImporter) (l : Bool)
    (h : Inv s) : Inv (Track.tryImportBeats s imp l).1 := by
  unfold Track.tryImportBeats
  dsimp only
  have h0 : Inv { s with pBeatsImporterPending := some imp } := inv_of_eq rfl rfl h
  split
  · exact inv_of_eq rfl rfl h0
  · split
    · exact inv_tryImportPendingBeatsMarkDirtyAndUnlock _ _ h0
    · split
      · exact inv_trySetBeatsMarkDirtyAndUnlock _ _ _ h0
      · exact inv_trySetBeatsMarkDirtyAndUnlock _ _ _ h0

theorem inv_setCuePointsWhileLocked (s : TrackState) (cues : List Cue) (h : Inv s) :
    Inv (Track.setCuePointsWhileLocked s cues).1 := by
  unfold Track.setCuePointsWhileLocked
  dsimp only
  split
  · exact h
  · exact inv_of_eq rfl rfl h

theorem inv_setCuePointsMarkDirtyAndUnlock (s : TrackState) (cues : List Cue)
    (h : Inv s) : Inv (Track.setCuePointsMarkDirtyAndUnlock s cues).1 := by
  unfold Track.setCuePointsMarkDirtyAndUnlock
  dsimp only
  have h1 := inv_setCuePointsWhileLocked s cues h
  split
  · rw [markDirtyAndUnlock_fst]
    exact inv_of_eq rfl rfl h1
  · exact h1

theorem inv_importPendingCueInfosWhileLocked (s : TrackState) (h : Inv s) :
    Inv (Track.importPendingCueInfosWhileLocked s).1 := by
  unfold Track.importPendingCueInfosWhileLocked
  dsimp only
  split
  · exact h
  · split
    · exact inv_of_eq rfl rfl h
    · exact inv_setCuePointsWhileLocked _ _ (inv_of_eq rfl rfl h)

theorem inv_importPendingCueInfosMarkDirtyAndUnlock (s : TrackState) (h : Inv s) :
    Inv (Track.importPendingCueInfosMarkDirtyAndUnlock s).1 := by
  unfold Track.importPendingCueInfosMarkDirtyAndUnlock
  dsimp only
  have h1 := inv_importPendingCueInfosWhileLocked s h
  split
  · rw [markDirtyAndUnlock_fst]
    exact inv_of_eq rfl rfl h1
  · exact h1

theorem inv_importCueInfos (s : TrackState) (imp : CueInfoImporter) (h : Inv s) :
    Inv (Track.importCueInfos s imp).1 := by
  unfold Track.importCueInfos
  dsimp only
  have h0 : Inv { s with pCueInfoImporterPending := some imp } := inv_of_eq rfl rfl h
  split
  · exact inv_of_eq rfl rfl h0
  · split
    · exact inv_importPendingCueInfosMarkDirtyAndUnlock _ h0
    · exact inv_setCuePointsMarkDirtyAndUnlock _ _ h0

theorem recordUpdateStreamInfoFromSource_bpm (r : TrackRecord) (si : StreamInfo) :
    (Track.recordUpdateStreamInfoFromSource r si).1.metadata.bpm = r.metadata.bpm := by
  unfold Track.recordUpdateStreamInfoFromSource
  dsimp only
  split <;> rfl

theorem inv_bDirty (s : TrackState) (b : Bool) (h : Inv s) :
    Inv { s with bDirty := b } :=
  inv_of_eq rfl rfl h

theorem inv_finishPendingImportsTail (rc : TrackState × Bool) (b : Bool)
    (h : Inv rc.1) : Inv (Track.finishPendingImportsTail rc b).1 := by
  unfold Track.finishPendingImportsTail
  dsimp only
  split
  · exact h
  · split <;> split
    · rw [afterBeatsAndBpmUpdated_fst]
      exact inv_bDirty _ _ h
    · rw [markDirtyAndUnlock_fst]
      exact inv_bDirty _ _ h
    · rw [afterBeatsAndBpmUpdated_fst]
      exact inv_bDirty _ _ h
    · rw [markDirtyAndUnlock_fst]
      exact inv_bDirty _ _ h

theorem inv_finishPendingImports (s0 : TrackState) (b c : Bool) (h0 : Inv s0) :
    Inv (Track.finishPendingImports s0 b c).1 := by
  unfold Track.finishPendingImports
  dsimp only
  apply inv_finishPendingImportsTail
  cases b <;> cases c <;> simp only [Bool.false_eq_true, if_false, if_true, reduceIte] <;>
    first
      | exact h0
      | exact inv_importPendingBeatsWhileLocked _ h0
      | exact inv_importPendingCueInfosWhileLocked _ h0
      | exact inv_importPendingCueInfosWhileLocked _ (inv_importPendingBeatsWhileLocked _ h0)

theorem inv_updateStreamInfoImports (s0 : TrackState) (u : Bool) (h0 : Inv s0) :
    Inv (Track.updateStreamInfoImports s0 u).1 := by
  unfold Track.updateStreamInfoImports
  dsimp only
  split
  · split
    · rw [markDirtyAndUnlock_fst]
      exact inv_bDirty _ _ h0
    · exact h0
  · exact inv_finishPendingImports _ _ _ h0

theorem inv_updateStreamInfoFromSource (s : TrackState) (si : StreamInfo)
    (h : Inv s) : Inv (Track.updateStreamInfoFromSource s si).1 := by
  unfold Track.updateStreamInfoFromSource
  dsimp only
  exact inv_updateStreamInfoImports _ _
    (inv_of_eq (recordUpdateStreamInfoFromSource_bpm s.record si) rfl h)

theorem inv_markDirty (s : TrackState) (h : Inv s) : Inv (Track.markDirty s).1 := by
  unfold Track.markDirty
  rw [setDirtyAndUnlock_fst]
  exact inv_bDirty _ _ h

theorem inv_markClean (s : TrackState) (h : Inv s) : Inv (Track.markClean s).1 := by
  unfold Track.markClean
  rw [setDirtyAndUnlock_fst]
  exact inv_bDirty _ _ h

theorem inv_setMainCuePosition (s : TrackState) (p : FramePos) (h : Inv s) :
    Inv (Track.setMainCuePosition s p).1 := by
  unfold Track.setMainCuePosition
  dsimp only
  split
  · exact h
  · rw [markDirtyAndUnlock_fst]
    apply inv_bDirty
    split
    · split
      · exact inv_of_eq rfl rfl h
      · exact inv_of_eq rfl rfl h
    · split
      · exact inv_of_eq rfl rfl h
      · exact inv_of_eq rfl rfl h

theorem inv_createAndAddCue (s : TrackState) (t : CueType) (i : Int)
    (sp ep : FramePos) (h : Inv s) : Inv (Track.createAndAddCue s t i sp ep).1 := by
  unfold Track.createAndAddCue
  dsimp only
  split
  · exact h
  · split
    · exact h
    · rw [markDirtyAndUnlock_fst]
      exact inv_bDirty _ _ (inv_of_eq rfl rfl h)

theorem inv_removeCue (s : TrackState) (c : Cue) (h : Inv s) :
    Inv (Track.removeCue s c).1 := by
  unfold Track.removeCue
  dsimp only
  rw [markDirtyAndUnlock_fst]
  apply inv_bDirty
  split
  · exact inv_of_eq rfl rfl h
  · exact inv_of_eq rfl rfl h

theorem inv_removeCuesOfType (s : TrackState) (t : CueType) (h : Inv s) :
    Inv (Track.removeCuesOfType s t).1 := by
  unfold Track.removeCuesOfType
  dsimp only
  split
  · rw [markDirtyAndUnlock_fst]
    exact inv_bDirty _ _ (inv_of_eq rfl rfl h)
  · exact inv_of_eq rfl rfl h

theorem inv_setCuePoints (s : TrackState) (cues : List Cue) (h : Inv s) :
    Inv (Track.setCuePoints s cues).1 :=
  inv_setCuePointsMarkDirtyAndUnlock s cues h

theorem inv_setBpmLocked (s : TrackState) (b : Bool) (h : Inv s) :
    Inv (Track.setBpmLocked s b).1 := by
  unfold Track.setBpmLocked
  dsimp only
  split
  · rw [markDirtyAndUnlock_fst]
    exact inv_bDirty _ _ (inv_of_eq rfl rfl h)
  · exact inv_of_eq rfl rfl h

theorem inv_initId (s : TrackState) (id : ℕ) (h : Inv s) :
    Inv (Track.initId s id) := by
  unfold Track.initId
  split
  · exact h
  · split
    · exact h
    · exact inv_of_eq rfl rfl h

theorem inv_resetId (s : TrackState) (h : Inv s) : Inv (Track.resetId s) :=
  inv_of_eq rfl rfl h

theorem inv_setSourceSynchronizedAt (s : TrackState) (b : Bool) (h : Inv s) :
    Inv (Track.setSourceSynchronizedAt s b).1 := by
  unfold Track.setSourceSynchronizedAt
  dsimp only
  split
  · rw [markDirtyAndUnlock_fst]
    exact inv_bDirty _ _ (inv_of_eq rfl rfl h)
  · exact inv_of_eq rfl rfl h

theorem inv_markForMetadataExport (s : TrackState) (h : Inv s) :
    Inv (Track.markForMetadataExport s) :=
  inv_of_eq rfl rfl h

theorem recordMergeExtraMetadataFromSource_bpm (r : TrackRecord) (m : TrackMetadata) :
    (Track.recordMergeExtraMetadataFromSource r m).1.metadata.bpm = r.metadata.bpm := by
  unfold Track.recordMergeExtraMetadataFromSource
  split <;> rfl

theorem inv_mergeExtraMetadataFromSource (s : TrackState) (m : TrackMetadata)
    (h : Inv s) : Inv (Track.mergeExtraMetadataFromSource s m).1 := by
  unfold Track.mergeExtraMetadataFromSource
  dsimp only
  have h1 : Inv { s with record := (Track.recordMergeExtraMetadataFromSource s.record m).1 } :=
    inv_of_eq (recordMergeExtraMetadataFromSource_bpm s.record m) rfl h
  split
  · exact h1
  · rw [markDirtyAndUnlock_fst]
    exact inv_bDirty _ _ h1

theorem inv_exportMetadataTail (env : ExportEnv) (s : TrackState) (calls : List ExtCall)
    (h : Inv s) : Inv (Track.exportMetadataTail env s calls).1 := by
  unfold Track.exportMetadataTail
  dsimp only
  split <;> exact inv_of_eq rfl rfl h

theorem inv_exportMetadata (env : ExportEnv) (s : TrackState) (h : Inv s) :
    Inv (Track.exportMetadata env s).1 := by
  unfold Track.exportMetadata
  dsimp only
  split
  · exact h
  · split
    · exact h
    · rename_i s1 hs1
      have h1 : Inv s1 := by
        split at hs1
        · split at hs1
          · exact absurd hs1 (by simp)
          · split at hs1
            · exact absurd hs1 (by simp)
            · split at hs1
              · cases hs1
                exact h
              · cases hs1
                exact inv_of_eq rfl rfl h
        · cases hs1
          exact h
      split
      · rename_i m hm
        have h2 : Inv { s1 with record :=
            (Track.recordMergeExtraMetadataFromSource s1.record m).1 } :=
          inv_of_eq (recordMergeExtraMetadataFromSource_bpm s1.record m) rfl h1
        split
        · exact h2
        · exact inv_exportMetadataTail _ _ _ h2
      · split
        · exact inv_exportMetadataTail _ _ _ h1
        · exact h1

theorem inv_color (s : TrackState) (c : Option ℕ) (h : Inv s) :
    Inv { s with record.color := c } :=
  inv_of_eq rfl rfl h

theorem inv_replaceRecord (s : TrackState) (nr : TrackRecord) (ob : Option Beats)
    (h : Inv s) : Inv (Track.replaceRecord s nr ob).1 := by
  unfold Track.replaceRecord
  dsimp only
  have hrb : Inv (match ob with
      | some pb => Track.trySetBeatsWhileLocked s (some pb) false
      | none => Track.trySetBpmWhileLocked s nr.metadata.bpm).1 := by
    cases ob
    · exact inv_trySetBpmWhileLocked _ _ h
    · exact inv_trySetBeatsWhileLocked _ _ _ h
  split
  · exact h
  · split
    · exact hrb
    · rw [markDirtyAndUnlock_fst]
      apply inv_bDirty
      exact hrb

theorem inv_importSeratoSidecar (s : TrackState) (bi : Option BeatsImporter)
    (l : Bool) (ci : Option CueInfoImporter) (sigs : List Signal) (h : Inv s) :
    Inv (Track.importSeratoSidecar s bi l ci sigs).1 := by
  unfold Track.importSeratoSidecar
  cases bi <;> cases ci <;> dsimp only
  · exact h
  · exact inv_importCueInfos _ _ h
  · exact inv_tryImportBeats _ _ _ h
  · exact inv_importCueInfos _ _ (inv_tryImportBeats _ _ _ h)

theorem inv_replaceMetadataCore (s : TrackState) (m : TrackMetadata) (b : Bool)
    (h : Inv s) : Inv (Track.replaceMetadataCore s m b).1 := by
  unfold Track.replaceMetadataCore
  dsimp only
  apply inv_color
  have h1 : Inv { s with record :=
      (Track.recordReplaceMetadataFromSource s.record
        { m with bpm := Track.getBpmWhileLocked s } b).1 } :=
    inv_of_eq rfl rfl h
  split
  · exact inv_trySetBpmWhileLocked _ _ h1
  · exact h1

theorem inv_replaceMetadataFromSource (s : TrackState) (m : TrackMetadata)
    (b : Bool) (h : Inv s) : Inv (Track.replaceMetadataFromSource s m b).1 := by
  unfold Track.replaceMetadataFromSource
  dsimp only
  split
  · exact inv_replaceMetadataCore _ _ _ h
  · apply inv_importSeratoSidecar
    rw [markDirtyAndUnlock_fst]
    exact inv_bDirty _ _ (inv_replaceMetadataCore _ _ _ h)

theorem step_preserves_inv {s s' : TrackState} (st : Step s s') (h : Inv s) :
    Inv s' := by
  cases st with
  | trySetBpm s bpm => exact inv_trySetBpm s bpm h
  | trySetBeats s pB => exact inv_trySetBeatsMarkDirtyAndUnlock s pB false h
  | trySetAndLockBeats s pB => exact inv_trySetBeatsMarkDirtyAndUnlock s pB true h
  | tryImportBeats s imp l => exact inv_tryImportBeats s imp l h
  | importCueInfos s imp => exact inv_importCueInfos s imp h
  | updateStreamInfoFromSource s si => exact inv_updateStreamInfoFromSource s si h
  | markDirty s => exact inv_markDirty s h
  | markClean s => exact inv_markClean s h
  | setBpmLocked s b => exact inv_setBpmLocked s b h
  | setMainCuePosition s p => exact inv_setMainCuePosition s p h
  | createAndAddCue s t i sp ep => exact inv_createAndAddCue s t i sp ep h
  | removeCue s c => exact inv_removeCue s c h
  | removeCuesOfType s t => exact inv_removeCuesOfType s t h
  | setCuePoints s cues => exact inv_setCuePoints s cues h
  | setSourceSynchronizedAt s b => exact inv_setSourceSynchronizedAt s b h
  | markForMetadataExport s => exact inv_markForMetadataExport s h
  | initId s n => exact inv_initId s n h
  | resetId s => exact inv_resetId s h
  | mergeExtraMetadataFromSource s m => exact inv_mergeExtraMetadataFromSource s m h
  | exportMetadata env s => exact inv_exportMetadata env s h
  | replaceRecord s nr ob => exact inv_replaceRecord s nr ob h
  | replaceMetadataFromSource s m b => exact inv_replaceMetadataFromSource s m b h

theorem reachable_inv (s : TrackState) (h : Reachable s) : Inv s := by
  obtain ⟨trackId, hr⟩ := h
  induction hr with
  | refl => rfl
  | tail _ hs ih => exact step_preserves_inv hs ih

/-- C1: in every reachable state of the Track aggregate, if a Beats
grid is present then the Metadata Record's BPM equals the grid's
`getBpm()`, and if no grid is present then the BPM is invalid; the
invariant is re-established by `setBeatsWhileLocked` under the same
lock acquisition and therefore holds after every public operation. -/
theorem C1_bpm_matches_beats (s : TrackState) (h : Reachable s) :
    (∀ b : Beats, s.pBeats = some b → s.record.metadata.bpm = b.getBpm) ∧
    (s.pBeats = none → s.record.metadata.bpm = none) := by
  have hInv := reachable_inv s h
  unfold Inv at hInv
  constructor
  · intro b hb
    rw [hInv, hb]
    rfl
  · intro hb
    rw [hInv, hb]
    rfl

theorem C1_bpm_matches_beats_witness :
    Reachable (Track.trySetBpm (Track.init (some 1)) (some 128)).1 ∧
    (Track.trySetBpm (Track.init (some 1)) (some 128)).1.record.metadata.bpm =
      Beats.getBpm ⟨none, some 0, some 128⟩ :=
  have hr : Reachable (Track.trySetBpm (Track.init (some 1)) (some 128)).1 :=
    ⟨some 1, Relation.ReflTransGen.tail Relation.ReflTransGen.refl
      (Step.trySetBpm (Track.init (some 1)) (some 128))⟩
  ⟨hr, (C1_bpm_matches_beats _ hr).1 ⟨none, some 0, some 128⟩ rfl⟩

theorem compareAndSet_fst {α : Type} [DecidableEq α] (x v : α) :
    (Track.compareAndSet x v).1 = v := by
  unfold Track.compareAndSet
  split
  · rfl
  · rename_i h
    exact not_not.mp h

theorem trySetBpm_pBeats (s : TrackState) (bpm : Bpm) :
    (Track.trySetBpm s bpm).1.pBeats = (Track.trySetBpmWhileLocked s bpm).1.pBeats := by
  unfold Track.trySetBpm
  dsimp only
  split
  · rw [afterBeatsAndBpmUpdated_fst]
  · rfl

theorem trySetBeatsWhileLocked_pBeats (s : TrackState) (pB : Option Beats) (l : Bool)
    (h : ¬(s.pBeats.isSome = true ∧ s.record.bpmLocked = true)) :
    (Track.trySetBeatsWhileLocked s pB l).1.pBeats = pB := by
  unfold Track.trySetBeatsWhileLocked Track.setBeatsWhileLocked
  dsimp only
  rw [if_neg h]
  split
  · rename_i heq
    exact heq
  · rfl

theorem trySetBpmWhileLocked_invalid (s : TrackState) :
    Track.trySetBpmWhileLocked s none = Track.trySetBeatsWhileLocked s none false := by
  unfold Track.trySetBpmWhileLocked
  rfl

theorem trySetBpmWhileLocked_noGrid (s : TrackState) (x : ℚ) (h : s.pBeats = none) :
    Track.trySetBpmWhileLocked s (some x) =
      Track.trySetBeatsWhileLocked s
        (some (Beats.fromConstTempo (Track.getSampleRate s)
          (if s.record.mainCuePosition.isSome then s.record.mainCuePosition
           else kStartFramePos) (some x))) false := by
  unfold Track.trySetBpmWhileLocked
  simp only [h]
  rfl

theorem trySetBpmWhileLocked_diff (s : TrackState) (x : ℚ) (b : Beats)
    (hb : s.pBeats = some b) (hne : b.getBpm ≠ some x) :
    Track.trySetBpmWhileLocked s (some x) =
      Track.trySetBeatsWhileLocked s (some (b.setBpm (some x))) false := by
  unfold Track.trySetBpmWhileLocked
  simp only [hb]
  rw [if_pos hne]
  rfl

theorem trySetBpmWhileLocked_same (s : TrackState) (x : ℚ) (b : Beats)
    (hb : s.pBeats = some b) (hx : b.getBpm = some x) :
    Track.trySetBpmWhileLocked s (some x) = (s, false) := by
  unfold Track.trySetBpmWhileLocked
  simp only [hb, hx]
  rw [if_neg (not_not_intro rfl)]
  rfl

/-- C2 counterexample: on a BPM-locked track with an existing grid,
`trySetBpm` with an invalid BPM does not clear the beat grid (the claim
says an invalid BPM always clears it). -/
theorem C2_counterexample :
    (Track.trySetBpm lockedGridTrack none).1.pBeats = some g120 ∧
    (Track.trySetBpm lockedGridTrack none).2.2 = false :=
  ⟨rfl, rfl⟩

/-- C2 (amended): provided the track is not BPM-locked with an existing
grid, `trySetBpm` implements the BPM state machine: an invalid BPM
clears the grid; a valid BPM with no grid installs a constant-tempo
grid anchored at the main-cue position (or the default start position)
using the current sample rate; a valid BPM with a grid at a different
BPM installs the grid produced by `setBpm`. -/
theorem C2_bpm_state_machine (s : TrackState)
    (h : ¬(s.pBeats.isSome = true ∧ s.record.bpmLocked = true)) :
    ((Track.trySetBpm s none).1.pBeats = none) ∧
    (∀ x : ℚ, s.pBeats = none →
      (Track.trySetBpm s (some x)).1.pBeats =
        some (Beats.fromConstTempo (Track.getSampleRate s)
          (if s.record.mainCuePosition.isSome then s.record.mainCuePosition
           else kStartFramePos) (some x))) ∧
    (∀ (x : ℚ) (b : Beats), s.pBeats = some b → b.getBpm ≠ some x →
      (Track.trySetBpm s (some x)).1.pBeats = some (b.setBpm (some x))) := by
  refine ⟨?_, ?_, ?_⟩
  · rw [trySetBpm_pBeats, trySetBpmWhileLocked_invalid]
    exact trySetBeatsWhileLocked_pBeats s none false h
  · intro x hx
    rw [trySetBpm_pBeats, trySetBpmWhileLocked_noGrid s x hx]
    exact trySetBeatsWhileLocked_pBeats s _ false h
  · intro x b hsb hne
    rw [trySetBpm_pBeats, trySetBpmWhileLocked_diff s x b hsb hne]
    exact trySetBeatsWhileLocked_pBeats s _ false h

theorem C2_bpm_state_machine_witness :
    ¬(gridTrack128.pBeats.isSome = true ∧ gridTrack128.record.bpmLocked = true) ∧
    (Track.trySetBpm gridTrack128 (some 140)).1.pBeats =
      some (g128.setBpm (some 140)) :=
  have h : ¬(gridTrack128.pBeats.isSome = true ∧ gridTrack128.record.bpmLocked = true) := by
    decide
  ⟨h, (C2_bpm_state_machine gridTrack128 h).2.2 140 g128 rfl (by decide)⟩

/-- C6: `trySetBpm` with a valid BPM equal to the existing grid's BPM
is a no-op: the state (grid, record BPM, dirty flag) is unchanged, no
notification fires, and the call reports `false` (unchanged). -/
theorem C6_trySetBpm_idempotent (s : TrackState) (x : ℚ) (b : Beats)
    (hb : s.pBeats = some b) (hx : b.getBpm = some x) :
    Track.trySetBpm s (some x) = (s, [], false) := by
  unfold Track.trySetBpm
  dsimp only
  rw [trySetBpmWhileLocked_same s x b hb hx]
  rfl

theorem C6_trySetBpm_idempotent_witness :
    gridTrack128.pBeats = some g128 ∧ Beats.getBpm g128 = some 128 ∧
    Track.trySetBpm gridTrack128 (some 128) = (gridTrack128, [], false) :=
  ⟨rfl, rfl, C6_trySetBpm_idempotent gridTrack128 128 g128 rfl rfl⟩

/-- C3 counterexample: the claim's exception clause says a caller may
replace the grid of a BPM-locked track via the lock-setting path
`trySetAndLockBeats`; on this code that path is rejected as well — the
call returns `false` and the grid stays unchanged. -/
theorem C3_counterexample :
    (Track.trySetAndLockBeats lockedGridTrack (some g128)).1.pBeats = some g120 ∧
    (Track.trySetAndLockBeats lockedGridTrack (some g128)).2.2 = false :=
  ⟨rfl, rfl⟩

/-- C3 (amended): for a track whose BPM-lock flag is true and whose
grid is non-null, grid replacement is rejected as a no-op on every
path: `trySetBeats` and also `trySetAndLockBeats` leave everything
unchanged and return `false`, and `tryImportBeats` with a non-empty
importer leaves the grid unchanged, emits nothing, and returns the
no-op status `Complete` (only stashing the importer). -/
theorem C3_bpm_lock_rejects (s : TrackState) (b : Beats)
    (hb : s.pBeats = some b) (hl : s.record.bpmLocked = true) :
    (∀ pB, Track.trySetBeats s pB = (s, [], false)) ∧
    (∀ pB, Track.trySetAndLockBeats s pB = (s, [], false)) ∧
    (∀ (imp : BeatsImporter) (l : Bool), imp.isEmpty = false →
      Track.tryImportBeats s imp l =
        ({ s with pBeatsImporterPending := some imp }, [],
          ImportStatus.Complete)) := by
  have hsome : s.pBeats.isSome = true := by rw [hb]; rfl
  have hguard : ∀ (s' : TrackState) (pB : Option Beats) (l : Bool),
      s'.pBeats.isSome = true → s'.record.bpmLocked = true →
      Track.trySetBeatsMarkDirtyAndUnlock s' pB l = (s', [], false) := by
    intro s' pB l h1 h2
    unfold Track.trySetBeatsMarkDirtyAndUnlock Track.trySetBeatsWhileLocked
    dsimp only
    rw [if_pos (show s'.pBeats.isSome = true ∧ s'.record.bpmLocked = true from ⟨h1, h2⟩)]
    rfl
  refine ⟨fun pB => hguard s pB false hsome hl,
    fun pB => hguard s pB true hsome hl, ?_⟩
  intro imp l hne
  unfold Track.tryImportBeats
  dsimp only
  rw [if_neg (by rw [hne]; exact Bool.false_ne_true)]
  split
  · unfold Track.tryImportPendingBeatsMarkDirtyAndUnlock
    rw [if_pos hl]
  · rw [hguard { s with pBeatsImporterPending := some imp } none l hsome hl]
    rfl

theorem C3_bpm_lock_rejects_witness :
    lockedGridTrack.pBeats = some g120 ∧
    lockedGridTrack.record.bpmLocked = true ∧
    Track.trySetBeats lockedGridTrack (some g128) = (lockedGridTrack, [], false) ∧
    Track.tryImportBeats lockedGridTrack impDemo false =
      ({ lockedGridTrack with pBeatsImporterPending := some impDemo }, [],
        ImportStatus.Complete) :=
  ⟨rfl, rfl,
    (C3_bpm_lock_rejects lockedGridTrack g120 rfl rfl).1 (some g128),
    (C3_bpm_lock_rejects lockedGridTrack g120 rfl rfl).2.2 impDemo false rfl⟩

/-- C5: `setDirtyAndUnlock` sets the dirty flag and then, after
unlocking: a track with an unset identifier emits no notification at
all; with a valid identifier it emits `dirty(id)`/`clean(id)` exactly
when the flag transitioned, and `changed(id)` exactly on dirty-marking
calls; and the dirty-marking paths (`markDirtyAndUnlock`, `markDirty`,
`markClean`) all go through `setDirtyAndUnlock`. -/
theorem C5_setDirtyAndUnlock_signals (s : TrackState) (bDirty : Bool) :
    ((Track.setDirtyAndUnlock s bDirty).1 = { s with bDirty := bDirty }) ∧
    (Track.markDirtyAndUnlock s = Track.setDirtyAndUnlock s true ∧
      Track.markDirty s = Track.setDirtyAndUnlock s true ∧
      Track.markClean s = Track.setDirtyAndUnlock s false) ∧
    (s.record.id = none → (Track.setDirtyAndUnlock s bDirty).2 = []) ∧
    (∀ i : ℕ, s.record.id = some i →
      ((Signal.changed i ∈ (Track.setDirtyAndUnlock s bDirty).2 ↔ bDirty = true) ∧
       (Signal.dirty i ∈ (Track.setDirtyAndUnlock s bDirty).2 ↔
         (s.bDirty = false ∧ bDirty = true)) ∧
       (Signal.clean i ∈ (Track.setDirtyAndUnlock s bDirty).2 ↔
         (s.bDirty = true ∧ bDirty = false)))) := by
  refine ⟨setDirtyAndUnlock_fst s bDirty, ⟨rfl, rfl, rfl⟩, ?_, ?_⟩
  · intro h
    simp [Track.setDirtyAndUnlock, h]
  · intro i h
    cases hb : s.bDirty <;> cases hd : bDirty <;>
      simp [Track.setDirtyAndUnlock, h, hb, hd]

theorem C5_setDirtyAndUnlock_signals_witness :
    (Track.init (some 7)).record.id = some 7 ∧
    Signal.dirty 7 ∈ (Track.setDirtyAndUnlock (Track.init (some 7)) true).2 ∧
    Signal.changed 7 ∈ (Track.setDirtyAndUnlock (Track.init (some 7)) true).2 :=
  ⟨rfl,
    ((C5_setDirtyAndUnlock_signals (Track.init (some 7)) true).2.2.2 7
      rfl).2.1.mpr ⟨rfl, rfl⟩,
    ((C5_setDirtyAndUnlock_signals (Track.init (some 7)) true).2.2.2 7
      rfl).1.mpr rfl⟩

/-- C7: a track that is neither marked for metadata export nor
source-synchronized is skipped by `exportMetadata` without invoking the
metadata source (in particular its export/write path) and without
modifying the track's state. -/
theorem C7_exportMetadata_skipped (env : ExportEnv) (s : TrackState)
    (hm : s.bMarkedForMetadataExport = false)
    (hs : s.record.sourceSynchronized = false) :
    Track.exportMetadata env s = (s, ExportTrackMetadataResult.Skipped, []) := by
  unfold Track.exportMetadata
  rw [if_pos ⟨hm, hs⟩]

theorem C7_exportMetadata_skipped_witness :
    (Track.init none).bMarkedForMetadataExport = false ∧
    (Track.init none).record.sourceSynchronized = false ∧
    Track.exportMetadata envDemo (Track.init none) =
      (Track.init none, ExportTrackMetadataResult.Skipped, []) :=
  ⟨rfl, rfl, C7_exportMetadata_skipped envDemo (Track.init none) rfl rfl⟩

/-- C8: `createAndAddCue` validates its arguments: a hot-cue index that
is neither the no-hot-cue sentinel nor at least the first-hot-cue
constant, or a call where both positions are invalid, is a safe no-op
returning an empty pointer with the cue collection unchanged; otherwise
the new cue with the given type, index and positions is appended and
returned. -/
theorem C8_createAndAddCue_validates (s : TrackState) (t : CueType) (i : Int)
    (sp ep : FramePos) :
    (¬(i = Cue.kNoHotCue ∨ i ≥ kFirstHotCueIndex) →
      Track.createAndAddCue s t i sp ep = (s, [], none)) ∧
    ((i = Cue.kNoHotCue ∨ i ≥ kFirstHotCueIndex) →
      ¬(sp.isSome = true ∨ ep.isSome = true) →
      Track.createAndAddCue s t i sp ep = (s, [], none)) ∧
    ((i = Cue.kNoHotCue ∨ i ≥ kFirstHotCueIndex) →
      (sp.isSome = true ∨ ep.isSome = true) →
      (Track.createAndAddCue s t i sp ep).1.cuePoints =
        s.cuePoints ++ [⟨t, i, sp, ep⟩] ∧
      (Track.createAndAddCue s t i sp ep).2.2 = some ⟨t, i, sp, ep⟩) := by
  refine ⟨?_, ?_, ?_⟩
  · intro h
    unfold Track.createAndAddCue
    rw [if_pos h]
  · intro h1 h2
    unfold Track.createAndAddCue
    rw [if_neg (not_not_intro h1), if_pos h2]
  · intro h1 h2
    unfold Track.createAndAddCue
    rw [if_neg (not_not_intro h1), if_neg (not_not_intro h2)]
    dsimp only
    rw [markDirtyAndUnlock_fst]
    exact ⟨rfl, rfl⟩

theorem C8_createAndAddCue_validates_witness :
    (¬((-5 : Int) = Cue.kNoHotCue ∨ (-5 : Int) ≥ kFirstHotCueIndex) ∧
      Track.createAndAddCue (Track.init none) CueType.HotCue (-5)
        (some 100) none = (Track.init none, [], none)) ∧
    (((-1 : Int) = Cue.kNoHotCue ∨ (-1 : Int) ≥ kFirstHotCueIndex) ∧
      Track.createAndAddCue (Track.init none) CueType.Loop (-1)
        none none = (Track.init none, [], none)) ∧
    ((Track.createAndAddCue (Track.init none) CueType.Intro (-1)
        (some 100) none).1.cuePoints =
      [⟨CueType.Intro, -1, some 100, none⟩]) :=
  ⟨⟨by decide,
    (C8_createAndAddCue_validates (Track.init none) CueType.HotCue (-5)
      (some 100) none).1 (by decide)⟩,
   ⟨by decide,
    (C8_createAndAddCue_validates (Track.init none) CueType.Loop (-1)
      none none).2.1 (by decide) (by decide)⟩,
   (C8_createAndAddCue_validates (Track.init none) CueType.Intro (-1)
      (some 100) none).2.2 (by decide) (by decide) |>.1⟩

/-- C9: `removeCuesOfType t` resets the record's main-cue position to
the start position for every cue type `t`, not only `MainCue`; in
particular, when no cue of type `t` is present but the stored main-cue
position differs from the start position, the call still marks the
track dirty and fires a cues-updated notification. -/
theorem C9_removeCuesOfType_resets_mainCue (s : TrackState) (t : CueType) :
    ((Track.removeCuesOfType s t).1.record.mainCuePosition = kStartFramePos) ∧
    (s.cuePoints.any (fun c => c.type = t) = false →
      s.record.mainCuePosition ≠ kStartFramePos →
      (Track.removeCuesOfType s t).1.bDirty = true ∧
      Signal.cuesUpdated ∈ (Track.removeCuesOfType s t).2) := by
  constructor
  · unfold Track.removeCuesOfType
    dsimp only
    split
    · rw [markDirtyAndUnlock_fst]
      exact compareAndSet_fst _ _
    · exact compareAndSet_fst _ _
  · intro h1 h2
    have hr : Track.compareAndSet s.record.mainCuePosition kStartFramePos =
        (kStartFramePos, true) := by
      unfold Track.compareAndSet
      rw [if_pos h2]
    unfold Track.removeCuesOfType
    dsimp only
    rw [h1, hr]
    dsimp only
    rw [if_pos (show (false || true) = true from rfl), markDirtyAndUnlock_fst]
    exact ⟨rfl, List.mem_append_right _ (List.mem_singleton.mpr rfl)⟩

theorem C9_removeCuesOfType_resets_mainCue_witness :
    (gridTrack128.cuePoints.any (fun c => c.type = CueType.Loop) = false ∧
      { gridTrack128 with record.mainCuePosition := some 5
        }.record.mainCuePosition ≠ kStartFramePos) ∧
    ((Track.removeCuesOfType
        { gridTrack128 with record.mainCuePosition := some 5 }
        CueType.Loop).1.bDirty = true ∧
      Signal.cuesUpdated ∈ (Track.removeCuesOfType
        { gridTrack128 with record.mainCuePosition := some 5 } CueType.Loop).2) :=
  ⟨⟨rfl, by decide⟩,
    (C9_removeCuesOfType_resets_mainCue
      { gridTrack128 with record.mainCuePosition := some 5 } CueType.Loop).2
      rfl (by decide)⟩

/-- C10: on a BPM-locked track whose stream info from source is known,
`tryImportBeats` with a non-empty importer returns `Complete` but does
not drain the importer: it stays stashed as pending, so
`getBeatsImportStatus()` reports `Pending` immediately afterwards,
contradicting the returned status; the beat grid stays unchanged. -/
theorem C10_locked_import_contradiction (s : TrackState) (imp : BeatsImporter)
    (l : Bool) (hl : s.record.bpmLocked = true)
    (hsi : s.record.streamInfoFromSource.isSome = true)
    (hne : imp.isEmpty = false) :
    Track.tryImportBeats s imp l =
      ({ s with pBeatsImporterPending := some imp }, [], ImportStatus.Complete) ∧
    Track.getBeatsImportStatus (Track.tryImportBeats s imp l).1 =
      ImportStatus.Pending ∧
    (Track.tryImportBeats s imp l).1.pBeats = s.pBeats := by
  have key : Track.tryImportBeats s imp l =
      ({ s with pBeatsImporterPending := some imp }, [], ImportStatus.Complete) := by
    unfold Track.tryImportBeats
    dsimp only
    rw [if_neg (by rw [hne]; exact Bool.false_ne_true), if_pos hsi]
    unfold Track.tryImportPendingBeatsMarkDirtyAndUnlock
    rw [if_pos hl]
  refine ⟨key, ?_, ?_⟩
  · rw [key]
    unfold Track.getBeatsImportStatus
    dsimp only
    rw [if_neg (by rw [hne]; exact Bool.false_ne_true)]
  · rw [key]

theorem C10_locked_import_contradiction_witness :
    lockedSourceTrack.record.bpmLocked = true ∧
    lockedSourceTrack.record.streamInfoFromSource.isSome = true ∧
    impDemo.isEmpty = false ∧
    Track.getBeatsImportStatus
      (Track.tryImportBeats lockedSourceTrack impDemo true).1 =
      ImportStatus.Pending ∧
    (Track.tryImportBeats lockedSourceTrack impDemo true).1.pBeats =
      lockedSourceTrack.pBeats :=
  ⟨rfl, rfl, rfl,
    (C10_locked_import_contradiction lockedSourceTrack impDemo true
      rfl rfl rfl).2.1,
    (C10_locked_import_contradiction lockedSourceTrack impDemo true
      rfl rfl rfl).2.2⟩

theorem compareAndSet_false_eq (l : Bool) :
    Track.compareAndSet false l = (l, l) := by
  cases l <;> rfl

theorem countBeatsUpdated_append (l1 l2 : List Signal) :
    countBeatsUpdated (l1 ++ l2) = countBeatsUpdated l1 + countBeatsUpdated l2 := by
  induction l1 with
  | nil => simp [countBeatsUpdated]
  | cons a t ih => simp [countBeatsUpdated, ih, Nat.add_assoc]

theorem countBeatsUpdated_setDirty (s : TrackState) (b : Bool) :
    countBeatsUpdated (Track.setDirtyAndUnlock s b).2 = 0 := by
  rcases h : s.record.id with _ | i <;> simp only [Track.setDirtyAndUnlock, h]
  · rfl
  · rw [countBeatsUpdated_append]
    repeat' split
    all_goals simp [countBeatsUpdated]

theorem countBeatsUpdated_afterBeats (s : TrackState) :
    countBeatsUpdated (Track.afterBeatsAndBpmUpdated s).2 = 1 := by
  unfold Track.afterBeatsAndBpmUpdated Track.markDirtyAndUnlock
  dsimp only
  rw [countBeatsUpdated_append, countBeatsUpdated_setDirty]
  rfl

theorem importPendingCueInfosWhileLocked_beats (s : TrackState) :
    (Track.importPendingCueInfosWhileLocked s).1.pBeats = s.pBeats ∧
    (Track.importPendingCueInfosWhileLocked s).1.pBeatsImporterPending =
      s.pBeatsImporterPending := by
  unfold Track.importPendingCueInfosWhileLocked Track.setCuePointsWhileLocked
  dsimp only
  repeat' split
  all_goals exact ⟨rfl, rfl⟩

theorem finishTail_beats_props (rc : TrackState × Bool) :
    (Track.finishPendingImportsTail rc true).1.pBeatsImporterPending =
      rc.1.pBeatsImporterPending ∧
    (Track.finishPendingImportsTail rc true).1.pBeats = rc.1.pBeats ∧
    countBeatsUpdated (Track.finishPendingImportsTail rc true).2 = 1 := by
  unfold Track.finishPendingImportsTail
  dsimp only
  rw [if_neg (by simp)]
  simp only [reduceIte]
  split
  · refine ⟨?_, ?_, ?_⟩
    · rw [afterBeatsAndBpmUpdated_fst]
    · rw [afterBeatsAndBpmUpdated_fst]
    · rw [countBeatsUpdated_append, countBeatsUpdated_afterBeats]
      rfl
  · refine ⟨?_, ?_, ?_⟩
    · rw [afterBeatsAndBpmUpdated_fst]
    · rw [afterBeatsAndBpmUpdated_fst]
    · exact countBeatsUpdated_afterBeats _

theorem importPendingBeatsWhileLocked_eq (s : TrackState) (imp : BeatsImporter)
    (d : Beats) (si : StreamInfo)
    (hp : s.pBeatsImporterPending = some imp) (hd : imp.data = some d)
    (hsi : s.record.streamInfoFromSource = some si) (hpb : s.pBeats = none) :
    Track.importPendingBeatsWhileLocked s =
      ({ s with
          pBeatsImporterPending := none
          pBeats := some { d with sampleRate := si.sampleRate }
          record.metadata.bpm := d.bpm }, true) := by
  unfold Track.importPendingBeatsWhileLocked
  rw [hp]
  dsimp only
  rw [if_neg (by simp [BeatsImporter.isEmpty, hd])]
  have hgd : s.record.streamInfoFromSource.getD streamInfoUnknown = si := by
    rw [hsi]
    rfl
  unfold BeatsImporter.importBeatsAndApplyTimingOffset Track.setBeatsWhileLocked
  rw [hgd, hd]
  dsimp only [Option.map]
  rw [if_neg (by simp [hpb])]
  rfl

theorem finishPendingImports_beats_props (s0 : TrackState) (c : Bool)
    (imp : BeatsImporter) (d : Beats) (si : StreamInfo)
    (hp : s0.pBeatsImporterPending = some imp) (hd : imp.data = some d)
    (hsi : s0.record.streamInfoFromSource = some si) (hpb : s0.pBeats = none) :
    (Track.finishPendingImports s0 true c).1.pBeatsImporterPending = none ∧
    (Track.finishPendingImports s0 true c).1.pBeats =
      some { d with sampleRate := si.sampleRate } ∧
    countBeatsUpdated (Track.finishPendingImports s0 true c).2 = 1 := by
  unfold Track.finishPendingImports
  dsimp only
  simp only [reduceIte]
  rw [importPendingBeatsWhileLocked_eq s0 imp d si hp hd hsi hpb]
  dsimp only
  cases c
  · simp only [Bool.false_eq_true, if_false]
    have h := finishTail_beats_props
      (({ s0 with
          pBeatsImporterPending := none
          pBeats := some { d with sampleRate := si.sampleRate }
          record.metadata.bpm := d.bpm }, false))
    exact ⟨h.1, h.2.1, h.2.2⟩
  · simp only [reduceIte]
    have hc := importPendingCueInfosWhileLocked_beats
      { s0 with
          pBeatsImporterPending := none
          pBeats := some { d with sampleRate := si.sampleRate }
          record.metadata.bpm := d.bpm }
    have h := finishTail_beats_props
      (Track.importPendingCueInfosWhileLocked
        { s0 with
            pBeatsImporterPending := none
            pBeats := some { d with sampleRate := si.sampleRate }
            record.metadata.bpm := d.bpm })
    refine ⟨?_, ?_, h.2.2⟩
    · rw [h.1]
      exact hc.2
    · rw [h.2.1]
      exact hc.1

theorem updateStreamInfoFromSource_drains (s : TrackState) (si : StreamInfo)
    (imp : BeatsImporter) (d : Beats)
    (hp : s.pBeatsImporterPending = some imp) (hd : imp.data = some d)
    (hsi : s.record.streamInfoFromSource = none) (hpb : s.pBeats = none) :
    (Track.updateStreamInfoFromSource s si).1.pBeatsImporterPending = none ∧
    (Track.updateStreamInfoFromSource s si).1.pBeats =
      some { d with sampleRate := si.sampleRate } ∧
    countBeatsUpdated (Track.updateStreamInfoFromSource s si).2 = 1 := by
  have hne : imp.isEmpty = false := by simp [BeatsImporter.isEmpty, hd]
  have hru : Track.recordUpdateStreamInfoFromSource s.record si =
      ({ s.record with
          streamInfoFromSource := some si
          metadata.sampleRate := si.sampleRate }, true) := by
    unfold Track.recordUpdateStreamInfoFromSource
    rw [if_neg (by simp [hsi])]
  unfold Track.updateStreamInfoFromSource
  dsimp only
  rw [hru]
  unfold Track.updateStreamInfoImports
  dsimp only
  simp only [hp, hne, Bool.not_false]
  rw [if_neg (by simp)]
  exact finishPendingImports_beats_props _ _ imp d si rfl hd rfl hpb

theorem getBeatsImportStatus_of_pending (s : TrackState) (imp : BeatsImporter)
    (hp : s.pBeatsImporterPending = some imp) (hne : imp.isEmpty = false) :
    Track.getBeatsImportStatus s = ImportStatus.Pending := by
  unfold Track.getBeatsImportStatus
  rw [hp]
  dsimp only
  rw [if_neg (by simp [hne])]

theorem getBeatsImportStatus_of_none (s : TrackState)
    (hp : s.pBeatsImporterPending = none) :
    Track.getBeatsImportStatus s = ImportStatus.Complete := by
  unfold Track.getBeatsImportStatus
  rw [hp]

theorem tryImportBeats_noStreamInfo_clears (s : TrackState) (imp : BeatsImporter)
    (l : Bool) (b : Beats)
    (hsi : s.record.streamInfoFromSource = none) (hb : s.pBeats = some b)
    (hl : s.record.bpmLocked = false) (hne : imp.isEmpty = false) :
    Track.tryImportBeats s imp l =
      ((Track.afterBeatsAndBpmUpdated
          { s with
              pBeatsImporterPending := some imp
              pBeats := none
              record.metadata.bpm := none
              record.bpmLocked := l }).1,
        (Track.afterBeatsAndBpmUpdated
          { s with
              pBeatsImporterPending := some imp
              pBeats := none
              record.metadata.bpm := none
              record.bpmLocked := l }).2,
        ImportStatus.Pending) := by
  unfold Track.tryImportBeats
  dsimp only
  rw [if_neg (by simp [hne]), if_neg (by simp [hsi])]
  unfold Track.trySetBeatsMarkDirtyAndUnlock Track.trySetBeatsWhileLocked
    Track.setBeatsWhileLocked
  dsimp only
  rw [hb, hl]
  rw [if_neg (show ¬((some b : Option Beats).isSome = true ∧ false = true) by simp)]
  rw [if_neg (show ¬((some b : Option Beats) = none) by simp)]
  dsimp only
  rw [compareAndSet_false_eq]
  dsimp only
  simp only [Bool.true_or, reduceIte]
  rfl

/-- C4 counterexample: a fresh track has no stream info from source and
no beat grid; submitting a non-empty importer returns `Complete`
(because clearing the absent grid changes nothing), not `Pending` as
the claim states for every track without stream info — while the
importer is nevertheless stashed, so the import status reads
`Pending`. -/
theorem C4_counterexample :
    (Track.init (some 1)).record.streamInfoFromSource = none ∧
    impDemo.isEmpty = false ∧
    (Track.tryImportBeats (Track.init (some 1)) impDemo false).2.2 =
      ImportStatus.Complete :=
  ⟨rfl, rfl, rfl⟩

/-- C4 (amended): for every track with no stream info from source, an
existing (non-null) beat grid and the BPM-lock flag false, a non-empty
`tryImportBeats` returns `Pending` and immediately clears the beats;
a subsequent `updateStreamInfoFromSource` drains and applies the
pending importer, changing `getBeatsImportStatus()` from `Pending` to
`Complete` and firing exactly one beats-updated notification. -/
theorem C4_deferred_import (s : TrackState) (imp : BeatsImporter) (l : Bool)
    (b : Beats) (d : Beats)
    (hsi : s.record.streamInfoFromSource = none) (hb : s.pBeats = some b)
    (hl : s.record.bpmLocked = false) (hd : imp.data = some d) :
    ((Track.tryImportBeats s imp l).2.2 = ImportStatus.Pending) ∧
    ((Track.tryImportBeats s imp l).1.pBeats = none) ∧
    (Track.getBeatsImportStatus (Track.tryImportBeats s imp l).1 =
      ImportStatus.Pending) ∧
    (∀ si : StreamInfo,
      Track.getBeatsImportStatus
        (Track.updateStreamInfoFromSource
          (Track.tryImportBeats s imp l).1 si).1 = ImportStatus.Complete ∧
      (Track.updateStreamInfoFromSource
        (Track.tryImportBeats s imp l).1 si).1.pBeats =
        some { d with sampleRate := si.sampleRate } ∧
      countBeatsUpdated
        (Track.updateStreamInfoFromSource
          (Track.tryImportBeats s imp l).1 si).2 = 1) := by
  have hne : imp.isEmpty = false := by simp [BeatsImporter.isEmpty, hd]
  have key := tryImportBeats_noStreamInfo_clears s imp l b hsi hb hl hne
  rw [key]
  dsimp only
  rw [afterBeatsAndBpmUpdated_fst]
  refine ⟨rfl, rfl, getBeatsImportStatus_of_pending _ imp rfl hne, ?_⟩
  intro si
  have hdr := updateStreamInfoFromSource_drains
    { { s with
        pBeatsImporterPending := some imp
        pBeats := none
        record.metadata.bpm := none
        record.bpmLocked := l } with bDirty := true }
    si imp d rfl hd (by dsimp only; rw [hsi]) rfl
  exact ⟨getBeatsImportStatus_of_none _ hdr.1, hdr.2.1, hdr.2.2⟩

theorem C4_deferred_import_witness :
    (gridTrack128.record.streamInfoFromSource = none ∧
      gridTrack128.pBeats = some g128 ∧
      gridTrack128.record.bpmLocked = false ∧ impDemo.data = some g128) ∧
    ((Track.tryImportBeats gridTrack128 impDemo false).2.2 =
      ImportStatus.Pending ∧
     Track.getBeatsImportStatus
        (Track.updateStreamInfoFromSource
          (Track.tryImportBeats gridTrack128 impDemo false).1 siDemo).1 =
        ImportStatus.Complete ∧
     countBeatsUpdated
        (Track.updateStreamInfoFromSource
          (Track.tryImportBeats gridTrack128 impDemo false).1 siDemo).2 = 1) :=
  ⟨⟨rfl, rfl, rfl, rfl⟩,
    (C4_deferred_import gridTrack128 impDemo false g128 g128 rfl rfl rfl rfl).1,
    ((C4_deferred_import gridTrack128 impDemo false g128 g128
      rfl rfl rfl rfl).2.2.2 siDemo).1,
    ((C4_deferred_import gridTrack128 impDemo false g128 g128
      rfl rfl rfl rfl).2.2.2 siDemo).2.2⟩

end Mixxx
